import Mathlib

/-!
Shallow embedding of the SoftPT path-tracer core, translated from
src/src/SoftPT.cpp (and the earlier revision src/unnamed/part_000).
Float arithmetic is idealised as exact real arithmetic: `float` becomes
`ℝ`, `sqrtf`/`cosf`/`sinf` become `Real.sqrt`/`Real.cos`/`Real.sin`, and
the global `rand()` stream becomes an explicitly passed stream `ℕ → ℝ`
together with a running index that every consumer threads through
(mirroring the sequential global generator).  The recursive `TracePath`
is embedded with an explicit fuel parameter returning `Option`, so that
the depth-boundedness of the recursion is a provable statement rather
than an assumption.
-/

namespace SoftPT

noncomputable section

open scoped Classical

def kPi : ℝ := 3.1415927

def kEpsilon : ℝ := 0.00001

@[ext]
structure Vector3 where
  x : ℝ
  y : ℝ
  z : ℝ

namespace Vector3

def Dot (v rhs : Vector3) : ℝ := v.x * rhs.x + v.y * rhs.y + v.z * rhs.z

def Cross (v rhs : Vector3) : Vector3 :=
  ⟨v.y * rhs.z - v.z * rhs.y, v.z * rhs.x - v.x * rhs.z, v.x * rhs.y - v.y * rhs.x⟩

def Length (v : Vector3) : ℝ := Real.sqrt (v.Dot v)

def sub (v rhs : Vector3) : Vector3 := ⟨v.x - rhs.x, v.y - rhs.y, v.z - rhs.z⟩

def add (v rhs : Vector3) : Vector3 := ⟨v.x + rhs.x, v.y + rhs.y, v.z + rhs.z⟩

def mulV (v rhs : Vector3) : Vector3 := ⟨v.x * rhs.x, v.y * rhs.y, v.z * rhs.z⟩

def mulS (v : Vector3) (rhs : ℝ) : Vector3 := ⟨v.x * rhs, v.y * rhs, v.z * rhs⟩

def Normalize (v : Vector3) : Vector3 := v.mulS (1 / v.Length)

def Distance (v rhs : Vector3) : ℝ := (v.sub rhs).Length

def IsEquivalent (v rhs : Vector3) (maxDelta : ℝ) : Prop :=
  (rhs.sub v).Length < maxDelta

end Vector3

structure Ray where
  origin : Vector3
  direction : Vector3

structure Material where
  albedo : Vector3
  emissive : Vector3
  roughness : ℝ

/-- The C++ `Sphere` holds a non-owning `const Material*`; the embedding
stores the referenced material by value. -/
structure Sphere where
  center : Vector3
  radius : ℝ
  material : Material

def Lerp (val0 val1 : Vector3) (t : ℝ) : Vector3 :=
  val0.add ((val1.sub val0).mulS t)

def Saturate (a : ℝ) : ℝ := if a < 0 then 0 else if 1 < a then 1 else a

/-- Named pieces of the ray/sphere quadratic computed inline by `Intersect`:
`rayOriginToSphereCenter`. -/
def oc (ray : Ray) (sphere : Sphere) : Vector3 := ray.origin.sub sphere.center

/-- Coefficient `a = direction · direction` of the intersection quadratic. -/
def qa (ray : Ray) : ℝ := ray.direction.Dot ray.direction

/-- Coefficient `b = 2 · direction · (origin − center)`. -/
def qb (ray : Ray) (sphere : Sphere) : ℝ := 2 * ray.direction.Dot (oc ray sphere)

/-- Coefficient `c = (origin − center)·(origin − center) − radius²`. -/
def qc (ray : Ray) (sphere : Sphere) : ℝ :=
  (oc ray sphere).Dot (oc ray sphere) - sphere.radius * sphere.radius

/-- `discriminant = b*b − 4*a*c` as computed by `Intersect`. -/
def discOf (ray : Ray) (sphere : Sphere) : ℝ :=
  qb ray sphere * qb ray sphere - 4 * qa ray * qc ray sphere

/-- Root `t0 = (−1·b + sqrt(discriminant)) / (2·a)`. -/
def troot0 (ray : Ray) (sphere : Sphere) : ℝ :=
  (-1 * qb ray sphere + Real.sqrt (discOf ray sphere)) / (2 * qa ray)

/-- Root `t1 = (−1·b − sqrt(discriminant)) / (2·a)`. -/
def troot1 (ray : Ray) (sphere : Sphere) : ℝ :=
  (-1 * qb ray sphere - Real.sqrt (discOf ray sphere)) / (2 * qa ray)

/-- `ray.origin + ray.direction * t`. -/
def rayAt (ray : Ray) (t : ℝ) : Vector3 :=
  ray.origin.add (ray.direction.mulS t)

/-- A point lies on the sphere's surface (used to state nearest-hit claims). -/
def onSphere (sphere : Sphere) (p : Vector3) : Prop :=
  (p.sub sphere.center).Dot (p.sub sphere.center) = sphere.radius * sphere.radius

/-- `result[numIntersections++] = p` on the state (count, slot0, slot1) of the
caller's zero-initialised `std::array<Vector3, 2>`. -/
def arraySet (s : ℕ × Vector3 × Vector3) (p : Vector3) : ℕ × Vector3 × Vector3 :=
  if s.1 = 0 then (1, p, s.2.2) else (2, s.2.1, p)

/-- `std::swap(result[0], result[1])`. -/
def swapA (s : ℕ × Vector3 × Vector3) : ℕ × Vector3 × Vector3 :=
  (s.1, s.2.2, s.2.1)

/-- `Intersect` of SoftPT.cpp: returns the number of intersections together
with the two slots of the output array (unwritten slots keep the caller's
zero initialisation). -/
def Intersect (ray : Ray) (sphere : Sphere) : ℕ × Vector3 × Vector3 :=
  if discOf ray sphere < 0 then (0, ⟨0, 0, 0⟩, ⟨0, 0, 0⟩)
  else
    let t0 := troot0 ray sphere
    let s1 : ℕ × Vector3 × Vector3 :=
      if 0 ≤ t0 then (1, rayAt ray t0, ⟨0, 0, 0⟩) else (0, ⟨0, 0, 0⟩, ⟨0, 0, 0⟩)
    if kEpsilon < discOf ray sphere then
      let t1 := troot1 ray sphere
      if 0 ≤ t1 then
        let s2 := arraySet s1 (rayAt ray t1)
        if 0 ≤ t0 ∧ 0 ≤ t1 ∧ t1 < t0 then swapA s2 else s2
      else s1
    else s1

/-- `std::swap(result[0], result[1])` on the `std::vector` revision. -/
def listSwap01 : List Vector3 → List Vector3
  | a :: b :: rest => b :: a :: rest
  | l => l

/-- `Intersect` of the earlier revision (src/unnamed/part_000): returns a
dynamically sized `std::vector<Vector3>` of hit points. -/
def IntersectList (ray : Ray) (sphere : Sphere) : List Vector3 :=
  if discOf ray sphere < 0 then []
  else
    let t0 := troot0 ray sphere
    let l1 : List Vector3 := if 0 ≤ t0 then [rayAt ray t0] else []
    if kEpsilon < discOf ray sphere then
      let t1 := troot1 ray sphere
      if 0 ≤ t1 then
        let l2 := l1.concat (rayAt ray t1)
        if 0 ≤ t0 ∧ 0 ≤ t1 ∧ t1 < t0 then listSwap01 l2 else l2
      else l1
    else l1

/-- The written prefix of the fixed-size intersection result, as a list. -/
def arrayHits (s : ℕ × Vector3 × Vector3) : List Vector3 :=
  if s.1 = 0 then [] else if s.1 = 1 then [s.2.1] else [s.2.1, s.2.2]

def RandomTangentFrame (normal : Vector3) : Vector3 × Vector3 :=
  let right : Vector3 := ⟨-1, 0, 0⟩
  let up : Vector3 := ⟨0, 1, 0⟩
  let outTangent := if normal.IsEquivalent right kEpsilon then up else right
  let outBitangent := (normal.Cross outTangent).Normalize
  ((outBitangent.Cross normal).Normalize, outBitangent)

def RandomVector (normal : Vector3) (rand0 rand1 : ℝ) : Vector3 :=
  let sqrtFactor := Real.sqrt (1 - rand0 * rand0)
  let cosFactor := Real.cos (2 * kPi * rand1)
  let sinFactor := Real.sin (2 * kPi * rand1)
  let randVec : Vector3 := ⟨sqrtFactor * cosFactor, rand0, sqrtFactor * sinFactor⟩
  let frame := RandomTangentFrame normal
  let tangent := frame.1
  let bitangent := frame.2
  let rowX : Vector3 := ⟨tangent.x, normal.x, bitangent.x⟩
  let rowY : Vector3 := ⟨tangent.y, normal.y, bitangent.y⟩
  let rowZ : Vector3 := ⟨tangent.z, normal.z, bitangent.z⟩
  ⟨randVec.Dot rowX, randVec.Dot rowY, randVec.Dot rowZ⟩

def kMaxBounces : ℕ := 6

/-- `#define USE_SKY_COLOR 0`: the sky-colour configuration is disabled. -/
def USE_SKY_COLOR : Bool := false

def skyColor (ray : Ray) : Vector3 :=
  Lerp ⟨0, 0, 0⟩ ⟨0.25, 0.55, 0.75⟩ ray.direction.y

/-- One step of the nearest-hit scan in `TracePath`.  The C++ sentinel pair
`nearestSphereIndex == INT_MAX` / `nearestDistance == FLT_MAX` is modelled by
`Option`: the first reported hit always replaces the sentinel, later hits
replace the best one exactly when strictly closer. -/
def updateNearest (ray : Ray) (best : Option (ℝ × Sphere × Vector3)) (s : Sphere) :
    Option (ℝ × Sphere × Vector3) :=
  let res := Intersect ray s
  if 0 < res.1 then
    let d := (res.2.1.sub ray.origin).Length
    match best with
    | none => some (d, s, res.2.1)
    | some b => if d < b.1 then some (d, s, res.2.1) else best
  else best

def findNearest (ray : Ray) (spheres : List Sphere) : Option (ℝ × Sphere × Vector3) :=
  spheres.foldl (updateNearest ray) none

/-- Fueled embedding of the recursive `TracePath`.  The result pairs the
radiance with the index of the next unconsumed random number (the C++ code
draws `rand0` and `rand1` from the global generator in the hit case).
`none` means the fuel did not cover the recursion depth actually used. -/
def TracePathF : ℕ → Ray → List Sphere → ℕ → (ℕ → ℝ) → ℕ → Option (Vector3 × ℕ)
  | 0, _, _, _, _, _ => none
  | fuel + 1, ray, spheres, bounce, rands, k =>
    if bounce = kMaxBounces then some (⟨0, 0, 0⟩, k)
    else
      match findNearest ray spheres with
      | none => some ((if USE_SKY_COLOR then skyColor ray else ⟨0, 0, 0⟩), k)
      | some hit =>
        let closestSphere := hit.2.1
        let nearestIntersection := hit.2.2
        let normal := (nearestIntersection.sub closestSphere.center).Normalize
        let rand0 := rands k
        let rand1 := rands (k + 1)
        let newDir := RandomVector normal rand0 rand1
        let newRay : Ray := ⟨nearestIntersection.add (normal.mulS kEpsilon), newDir⟩
        (TracePathF fuel newRay spheres (bounce + 1) rands (k + 2)).map fun res =>
          ((closestSphere.material.emissive.add
            ((closestSphere.material.albedo.mulV res.1).mulS (normal.Dot newDir))), res.2)

/-- `TracePath` with exactly the fuel needed for its bounded recursion
(`kMaxBounces + 1 − bounce` call levels when `bounce ≤ kMaxBounces`). -/
def TracePath (ray : Ray) (spheres : List Sphere) (bounce : ℕ) (rands : ℕ → ℝ)
    (k : ℕ) : Vector3 × ℕ :=
  (TracePathF (kMaxBounces + 1 - bounce) ray spheres bounce rands k).getD (⟨0, 0, 0⟩, k)

def GenerateTangentSphere (sphere : Sphere) (center : Vector3) (material : Material) :
    Sphere :=
  ⟨center, (center.sub sphere.center).Length - sphere.radius, material⟩

def GenerateOffsetSphere (sphere : Sphere) (center : Vector3) (offset : ℝ)
    (material : Material) : Sphere :=
  ⟨center, (center.sub sphere.center).Length - sphere.radius - offset, material⟩

/-- The fixed scene of SoftPT.cpp's `InitScene` (materials inlined by value;
the C++ stores them in a sibling vector referenced by address). -/
def InitScene : List Sphere :=
  let mat0 : Material := ⟨⟨1, 1, 1⟩, ⟨0, 0, 0⟩, 1⟩
  let mat1 : Material := ⟨⟨0.5, 1, 0.5⟩, ⟨10, 10, 10⟩, 1⟩
  let mat2 : Material := ⟨⟨1, 0.5, 0.5⟩, ⟨0, 0, 0⟩, 1⟩
  let mat3 : Material := ⟨⟨0.5, 0.5, 1⟩, ⟨0, 0, 0⟩, 1⟩
  let mat4 : Material := ⟨⟨0.5, 1, 0.75⟩, ⟨0, 0, 0⟩, 1⟩
  let mat5 : Material := ⟨⟨1, 1, 0.5⟩, ⟨10, 5, 5⟩, 1⟩
  let mat6 : Material := ⟨⟨1, 1, 1⟩, ⟨0, 0, 0⟩, 1⟩
  let mat7 : Material := ⟨⟨0.5, 1, 1⟩, ⟨5, 5, 10⟩, 1⟩
  let globalRadius : ℝ := 100
  let globalCenter : Vector3 := ⟨0, -globalRadius, 0⟩
  let s0 : Sphere := ⟨globalCenter, 100, mat0⟩
  [s0,
   GenerateOffsetSphere s0 ⟨0, 0.25, 0⟩ 0.125 mat1,
   GenerateTangentSphere s0 ⟨-0.5, 0.125, 0⟩ mat2,
   GenerateTangentSphere s0 ⟨0.5, 0.25, 0.5⟩ mat3,
   GenerateTangentSphere s0 ⟨0.25, 0.05, -0.25⟩ mat4,
   GenerateOffsetSphere s0 ⟨-0.25, 1, 1.5⟩ 0.5 mat5,
   GenerateTangentSphere s0 ⟨0.25, 0.1, 0.25⟩ mat6,
   GenerateTangentSphere s0 ⟨-0.65, 0.05, -0.25⟩ mat7]

def kNumSamples : ℕ := 1024

/-- `static_cast<BYTE>` of a saturated colour channel scaled to 8 bits
(truncation of a value in [0, 255]). -/
def toByte (a : ℝ) : ℤ := ⌊Saturate a * 255⌋

/-- The per-pixel sample loop of `Render`, threading the random index. -/
def sampleLoop : ℕ → Ray → List Sphere → (ℕ → ℝ) → ℕ → Vector3 → Vector3 × ℕ
  | 0, _, _, _, k, acc => (acc, k)
  | s + 1, ray, spheres, rands, k, acc =>
    let r := TracePath ray spheres 0 rands k
    sampleLoop s ray spheres rands r.2 (acc.add r.1)

/-- The `Render` frame driver of SoftPT.cpp: per-pixel camera-ray generation,
sample accumulation via `TracePath`, tone mapping.  The pixel buffer is the
list of columns (outer loop `i`, inner loop `j`, as in the source), and the
seeded random stream is threaded sequentially through all pixels. -/
def Render (width height : ℕ) (rands : ℕ → ℝ) : List (List (ℤ × ℤ × ℤ)) :=
  let spheres := InitScene
  let camTarget : Vector3 := ⟨0, 0, 0⟩
  let camPos : Vector3 := ⟨0, 0.5, -1⟩
  let camUp : Vector3 := ⟨0, 1, 0⟩
  let camRight := camUp.Cross ((camTarget.sub camPos).Normalize)
  let orthoCamUp := camRight.Cross camPos.Normalize
  let dx : ℝ := 2 / (width : ℝ)
  let dy : ℝ := 2 / (height : ℝ)
  ((List.range width).foldl (fun (st : List (List (ℤ × ℤ × ℤ)) × ℕ) i =>
    let inner := (List.range height).foldl (fun (st2 : List (ℤ × ℤ × ℤ) × ℕ) j =>
      let nearPlanePos := (camRight.mulS (-1 + dx * (i : ℝ))).add
        (orthoCamUp.mulS (1 - dy * (j : ℝ)))
      let ray : Ray := ⟨camPos, (nearPlanePos.sub camPos).Normalize⟩
      let r := sampleLoop kNumSamples ray spheres rands st2.2 ⟨0, 0, 0⟩
      let color := r.1.mulV ⟨1 / (kNumSamples : ℝ), 1 / (kNumSamples : ℝ), 1 / (kNumSamples : ℝ)⟩
      (st2.1.concat (toByte color.x, toByte color.y, toByte color.z), r.2))
      ([], st.2)
    (st.1.concat inner.1, inner.2)) ([], 0)).1

/-! ### Algebraic helper lemmas -/

lemma dot_self_nonneg (v : Vector3) : 0 ≤ v.Dot v := by
  simp only [Vector3.Dot]
  linarith [mul_self_nonneg v.x, mul_self_nonneg v.y, mul_self_nonneg v.z]

lemma qa_pos (ray : Ray) (hd : ray.direction ≠ (⟨0, 0, 0⟩ : Vector3)) : 0 < qa ray := by
  have h0 : 0 ≤ qa ray := dot_self_nonneg _
  rcases lt_or_eq_of_le h0 with h | h
  · exact h
  · exfalso
    apply hd
    simp only [qa, Vector3.Dot] at h
    have hx : ray.direction.x * ray.direction.x = 0 := by
      nlinarith [mul_self_nonneg ray.direction.x, mul_self_nonneg ray.direction.y,
        mul_self_nonneg ray.direction.z]
    have hy : ray.direction.y * ray.direction.y = 0 := by
      nlinarith [mul_self_nonneg ray.direction.x, mul_self_nonneg ray.direction.y,
        mul_self_nonneg ray.direction.z]
    have hz : ray.direction.z * ray.direction.z = 0 := by
      nlinarith [mul_self_nonneg ray.direction.x, mul_self_nonneg ray.direction.y,
        mul_self_nonneg ray.direction.z]
    exact Vector3.ext (mul_self_eq_zero.mp hx) (mul_self_eq_zero.mp hy)
      (mul_self_eq_zero.mp hz)

lemma sphere_quadratic (ray : Ray) (sphere : Sphere) (t : ℝ) :
    ((rayAt ray t).sub sphere.center).Dot ((rayAt ray t).sub sphere.center)
        - sphere.radius * sphere.radius
      = qa ray * (t * t) + qb ray sphere * t + qc ray sphere := by
  simp only [rayAt, qa, qb, qc, oc, Vector3.sub, Vector3.add, Vector3.mulS, Vector3.Dot]
  ring

lemma onSphere_iff_quad (ray : Ray) (sphere : Sphere) (t : ℝ) :
    onSphere sphere (rayAt ray t) ↔
      qa ray * (t * t) + qb ray sphere * t + qc ray sphere = 0 := by
  unfold onSphere
  constructor <;> intro h <;> linarith [sphere_quadratic ray sphere t]

lemma quad_root_iff (ray : Ray) (sphere : Sphere) (ha : qa ray ≠ 0)
    (hD : 0 ≤ discOf ray sphere) (t : ℝ) :
    qa ray * (t * t) + qb ray sphere * t + qc ray sphere = 0 ↔
      t = troot0 ray sphere ∨ t = troot1 ray sphere := by
  have hs : discrim (qa ray) (qb ray sphere) (qc ray sphere)
      = Real.sqrt (discOf ray sphere) * Real.sqrt (discOf ray sphere) := by
    rw [Real.mul_self_sqrt hD]
    unfold discrim discOf
    ring
  have e0 : (-(qb ray sphere) + Real.sqrt (discOf ray sphere)) / (2 * qa ray)
      = troot0 ray sphere := by
    unfold troot0; ring_nf
  have e1 : (-(qb ray sphere) - Real.sqrt (discOf ray sphere)) / (2 * qa ray)
      = troot1 ray sphere := by
    unfold troot1; ring_nf
  rw [quadratic_eq_zero_iff ha hs t, e0, e1]

lemma onSphere_iff_root (ray : Ray) (sphere : Sphere) (ha : qa ray ≠ 0)
    (hD : 0 ≤ discOf ray sphere) (t : ℝ) :
    onSphere sphere (rayAt ray t) ↔ t = troot0 ray sphere ∨ t = troot1 ray sphere := by
  rw [onSphere_iff_quad, quad_root_iff ray sphere ha hD]

lemma troot1_le_troot0 (ray : Ray) (sphere : Sphere) (ha : 0 < qa ray) :
    troot1 ray sphere ≤ troot0 ray sphere := by
  unfold troot0 troot1
  have h2a : (0 : ℝ) < 2 * qa ray := by linarith
  have hnum : -1 * qb ray sphere - Real.sqrt (discOf ray sphere)
      ≤ -1 * qb ray sphere + Real.sqrt (discOf ray sphere) := by
    linarith [Real.sqrt_nonneg (discOf ray sphere)]
  exact div_le_div_of_nonneg_right hnum h2a.le

lemma troot1_lt_troot0 (ray : Ray) (sphere : Sphere) (ha : 0 < qa ray)
    (hD : 0 < discOf ray sphere) : troot1 ray sphere < troot0 ray sphere := by
  unfold troot0 troot1
  have h2a : (0 : ℝ) < 2 * qa ray := by linarith
  have hs : 0 < Real.sqrt (discOf ray sphere) := Real.sqrt_pos.mpr hD
  have hnum : -1 * qb ray sphere - Real.sqrt (discOf ray sphere)
      < -1 * qb ray sphere + Real.sqrt (discOf ray sphere) := by linarith
  exact div_lt_div_of_pos_right hnum h2a

lemma length_mul_self (v : Vector3) : v.Length * v.Length = v.Dot v :=
  Real.mul_self_sqrt (dot_self_nonneg v)

lemma mulS_dot (v : Vector3) (r : ℝ) (w : Vector3) :
    (v.mulS r).Dot w = r * v.Dot w := by
  simp only [Vector3.mulS, Vector3.Dot]
  ring

lemma normalize_dot (v w : Vector3) :
    v.Normalize.Dot w = 1 / v.Length * v.Dot w := by
  unfold Vector3.Normalize
  exact mulS_dot v _ w

lemma normalize_dot_self (v : Vector3) (hv : 0 < v.Dot v) :
    v.Normalize.Dot v.Normalize = 1 := by
  have hL2 := length_mul_self v
  have hLpos : 0 < v.Length := Real.sqrt_pos.mpr hv
  have expand : v.Normalize.Dot v.Normalize = v.Dot v * (1 / v.Length * (1 / v.Length)) := by
    simp only [Vector3.Normalize, Vector3.mulS, Vector3.Dot]
    ring
  rw [expand, ← hL2]
  field_simp

lemma normalize_length (v : Vector3) (hv : 0 < v.Dot v) : v.Normalize.Length = 1 := by
  unfold Vector3.Length
  rw [normalize_dot_self v hv, Real.sqrt_one]

lemma cross_dot_left (a b : Vector3) : (a.Cross b).Dot a = 0 := by
  simp only [Vector3.Cross, Vector3.Dot]
  ring

lemma cross_dot_right (a b : Vector3) : (a.Cross b).Dot b = 0 := by
  simp only [Vector3.Cross, Vector3.Dot]
  ring

lemma normCross_dot_left (a b : Vector3) : ((a.Cross b).Normalize).Dot a = 0 := by
  rw [normalize_dot, cross_dot_left, mul_zero]

lemma normCross_dot_right (a b : Vector3) : ((a.Cross b).Normalize).Dot b = 0 := by
  rw [normalize_dot, cross_dot_right, mul_zero]

lemma cross_dot_cross (a b : Vector3) :
    (a.Cross b).Dot (a.Cross b) = a.Dot a * b.Dot b - a.Dot b * (a.Dot b) := by
  simp only [Vector3.Cross, Vector3.Dot]
  ring

/-- Both frame vectors returned by `RandomTangentFrame` are orthogonal to the
input normal, no matter which seed branch is taken and even when the cross
product degenerates. -/
lemma tangentFrame_dot_normal (n : Vector3) :
    ((RandomTangentFrame n).1).Dot n = 0 ∧ ((RandomTangentFrame n).2).Dot n = 0 := by
  simp only [RandomTangentFrame]
  exact ⟨normCross_dot_right _ n, normCross_dot_left n _⟩

/-! ### Concrete square-root evaluations used by witnesses -/

lemma sqrt_four : Real.sqrt 4 = 2 := by
  rw [show (4 : ℝ) = 2 ^ 2 by norm_num, Real.sqrt_sq (by norm_num : (0 : ℝ) ≤ 2)]

lemma sqrt_sixteen : Real.sqrt 16 = 4 := by
  rw [show (16 : ℝ) = 4 ^ 2 by norm_num, Real.sqrt_sq (by norm_num : (0 : ℝ) ≤ 4)]

lemma sqrt_inv250000 : Real.sqrt (1 / 250000) = 1 / 500 := by
  rw [show (1 / 250000 : ℝ) = (1 / 500) ^ 2 by norm_num,
    Real.sqrt_sq (by norm_num : (0 : ℝ) ≤ 1 / 500)]

/-! ### Branch evaluations of `Intersect` -/

lemma Intersect_of_neg {ray : Ray} {sphere : Sphere} (h : discOf ray sphere < 0) :
    Intersect ray sphere = (0, ⟨0, 0, 0⟩, ⟨0, 0, 0⟩) := by
  simp [Intersect, h]

lemma Intersect_one_lowdisc {ray : Ray} {sphere : Sphere}
    (h0 : ¬ discOf ray sphere < 0) (h1 : 0 ≤ troot0 ray sphere)
    (h2 : ¬ kEpsilon < discOf ray sphere) :
    Intersect ray sphere = (1, rayAt ray (troot0 ray sphere), ⟨0, 0, 0⟩) := by
  simp [Intersect, h0, h1, h2]

lemma Intersect_zero_lowdisc {ray : Ray} {sphere : Sphere}
    (h0 : ¬ discOf ray sphere < 0) (h1 : ¬ 0 ≤ troot0 ray sphere)
    (h2 : ¬ kEpsilon < discOf ray sphere) :
    Intersect ray sphere = (0, ⟨0, 0, 0⟩, ⟨0, 0, 0⟩) := by
  simp [Intersect, h0, h1, h2]

lemma Intersect_one_t1neg {ray : Ray} {sphere : Sphere}
    (h0 : ¬ discOf ray sphere < 0) (h1 : 0 ≤ troot0 ray sphere)
    (h2 : kEpsilon < discOf ray sphere) (h3 : ¬ 0 ≤ troot1 ray sphere) :
    Intersect ray sphere = (1, rayAt ray (troot0 ray sphere), ⟨0, 0, 0⟩) := by
  simp [Intersect, h0, h1, h2, h3]

lemma Intersect_zero_highdisc {ray : Ray} {sphere : Sphere}
    (h0 : ¬ discOf ray sphere < 0) (h1 : ¬ 0 ≤ troot0 ray sphere)
    (h2 : kEpsilon < discOf ray sphere) (h3 : ¬ 0 ≤ troot1 ray sphere) :
    Intersect ray sphere = (0, ⟨0, 0, 0⟩, ⟨0, 0, 0⟩) := by
  simp [Intersect, h0, h1, h2, h3]

lemma Intersect_two {ray : Ray} {sphere : Sphere}
    (h0 : ¬ discOf ray sphere < 0) (h1 : 0 ≤ troot0 ray sphere)
    (h2 : kEpsilon < discOf ray sphere) (h3 : 0 ≤ troot1 ray sphere)
    (h4 : troot1 ray sphere < troot0 ray sphere) :
    Intersect ray sphere
      = (2, rayAt ray (troot1 ray sphere), rayAt ray (troot0 ray sphere)) := by
  simp [Intersect, h0, h1, h2, h3, h4, arraySet, swapA]

lemma count_pos_cases {ray : Ray} {sphere : Sphere}
    (h : (Intersect ray sphere).1 ≠ 0) :
    ¬ discOf ray sphere < 0 ∧ (0 ≤ troot0 ray sphere ∨ 0 ≤ troot1 ray sphere) := by
  by_cases h0 : discOf ray sphere < 0
  · rw [Intersect_of_neg h0] at h
    simp at h
  · refine ⟨h0, ?_⟩
    by_cases h1 : 0 ≤ troot0 ray sphere
    · exact Or.inl h1
    · by_cases h2 : kEpsilon < discOf ray sphere
      · by_cases h3 : 0 ≤ troot1 ray sphere
        · exact Or.inr h3
        · rw [Intersect_zero_highdisc h0 h1 h2 h3] at h
          simp at h
      · rw [Intersect_zero_lowdisc h0 h1 h2] at h
        simp at h

/-! ### TracePath helpers -/

lemma findNearest_singleton (ray : Ray) (s : Sphere) :
    findNearest ray [s] = if 0 < (Intersect ray s).1 then
      some ((((Intersect ray s).2.1).sub ray.origin).Length, s, (Intersect ray s).2.1)
    else none := by
  simp only [findNearest, List.foldl, updateNearest]

/-- Fuel `kMaxBounces + 1 − bounce` always suffices when the starting bounce
is at most the maximum: the recursion is depth-bounded. -/
lemma tracePathF_isSome (fuel : ℕ) : ∀ (ray : Ray) (spheres : List Sphere)
    (bounce k : ℕ) (rands : ℕ → ℝ), kMaxBounces + 1 - bounce ≤ fuel →
    bounce ≤ kMaxBounces → (TracePathF fuel ray spheres bounce rands k).isSome = true := by
  induction fuel with
  | zero =>
    intro ray spheres bounce k rands hf hb
    exfalso
    simp only [kMaxBounces] at hf hb
    omega
  | succ fuel ih =>
    intro ray spheres bounce k rands hf hb
    rw [TracePathF]
    by_cases h6 : bounce = kMaxBounces
    · simp [h6]
    · rw [if_neg h6]
      cases hfind : findNearest ray spheres with
      | none => simp
      | some hit =>
        simp only [Option.isSome_map']
        refine ih _ spheres (bounce + 1) (k + 2) rands ?_ ?_ <;>
          simp only [kMaxBounces] at hf hb h6 ⊢ <;> omega

/-- A point farther along the ray (by parameter) is at least as far from the
ray origin (by Euclidean distance). -/
lemma rayAt_dist_mono (ray : Ray) (t s : ℝ) (h0 : 0 ≤ t) (h : t ≤ s) :
    (rayAt ray t).Distance ray.origin ≤ (rayAt ray s).Distance ray.origin := by
  unfold Vector3.Distance Vector3.Length
  apply Real.sqrt_le_sqrt
  simp only [rayAt, Vector3.sub, Vector3.add, Vector3.mulS, Vector3.Dot]
  nlinarith [mul_self_nonneg ray.direction.x, mul_self_nonneg ray.direction.y,
    mul_self_nonneg ray.direction.z,
    mul_nonneg (sub_nonneg.mpr h) (by linarith : (0 : ℝ) ≤ t + s)]

/-! ### Concrete inputs used by example parts, witnesses and counterexamples -/

/-- The spec's example ray: origin (0,0,−5), direction (0,0,1). -/
def exRay : Ray := ⟨⟨0, 0, -5⟩, ⟨0, 0, 1⟩⟩

def exMat : Material := ⟨⟨1, 1, 1⟩, ⟨0, 0, 0⟩, 1⟩

/-- Unit sphere at the origin carrying a given material. -/
def unitSphere (m : Material) : Sphere := ⟨⟨0, 0, 0⟩, 1, m⟩

/-- A near-tangent sphere: radius 1/1000 gives discriminant 1/250000, which is
positive but below `kEpsilon`. -/
def ntSphere : Sphere := ⟨⟨0, 0, 0⟩, 1 / 1000, exMat⟩

lemma discOf_unit (m : Material) : discOf exRay (unitSphere m) = 4 := by
  simp only [discOf, qa, qb, qc, oc, exRay, unitSphere, Vector3.Dot, Vector3.sub]
  norm_num

lemma troot0_unit (m : Material) : troot0 exRay (unitSphere m) = 6 := by
  unfold troot0
  rw [discOf_unit, sqrt_four]
  simp only [qa, qb, oc, exRay, unitSphere, Vector3.Dot, Vector3.sub]
  norm_num

lemma troot1_unit (m : Material) : troot1 exRay (unitSphere m) = 4 := by
  unfold troot1
  rw [discOf_unit, sqrt_four]
  simp only [qa, qb, oc, exRay, unitSphere, Vector3.Dot, Vector3.sub]
  norm_num

lemma Intersect_unit (m : Material) :
    Intersect exRay (unitSphere m) = (2, ⟨0, 0, -1⟩, ⟨0, 0, 1⟩) := by
  rw [Intersect_two (by rw [discOf_unit]; norm_num)
    (by rw [troot0_unit]; norm_num) (by rw [discOf_unit]; norm_num [kEpsilon])
    (by rw [troot1_unit]; norm_num) (by rw [troot0_unit, troot1_unit]; norm_num)]
  rw [troot0_unit, troot1_unit]
  simp only [rayAt, exRay, Vector3.add, Vector3.mulS]
  norm_num

lemma findNearest_unit (m : Material) :
    findNearest exRay [unitSphere m] = some (4, unitSphere m, ⟨0, 0, -1⟩) := by
  rw [findNearest_singleton, Intersect_unit]
  have hlen : ((⟨0, 0, -1⟩ : Vector3).sub exRay.origin).Length = 4 := by
    simp only [Vector3.Length, Vector3.sub, Vector3.Dot, exRay]
    norm_num
    exact sqrt_sixteen
  simp [hlen]

lemma discOf_nt : discOf exRay ntSphere = 1 / 250000 := by
  simp only [discOf, qa, qb, qc, oc, exRay, ntSphere, Vector3.Dot, Vector3.sub]
  norm_num

lemma troot0_nt : troot0 exRay ntSphere = 5001 / 1000 := by
  unfold troot0
  rw [discOf_nt, sqrt_inv250000]
  simp only [qa, qb, oc, exRay, ntSphere, Vector3.Dot, Vector3.sub]
  norm_num

lemma Intersect_nt :
    Intersect exRay ntSphere = (1, ⟨0, 0, 1 / 1000⟩, ⟨0, 0, 0⟩) := by
  rw [Intersect_one_lowdisc (by rw [discOf_nt]; norm_num)
    (by rw [troot0_nt]; norm_num) (by rw [discOf_nt]; norm_num [kEpsilon])]
  rw [troot0_nt]
  simp only [rayAt, exRay, Vector3.add, Vector3.mulS]
  norm_num

lemma randomVector_dot_normal (n : Vector3) (hn : n.Dot n = 1) (r0 r1 : ℝ) :
    (RandomVector n r0 r1).Dot n = r0 := by
  obtain ⟨ht, hb⟩ := tangentFrame_dot_normal n
  simp only [Vector3.Dot] at ht hb hn
  simp only [RandomVector, Vector3.Dot]
  linear_combination (Real.sqrt (1 - r0 * r0) * Real.cos (2 * kPi * r1)) * ht
    + r0 * hn + (Real.sqrt (1 - r0 * r0) * Real.sin (2 * kPi * r1)) * hb

/-- The tangent frame built from a seed whose cross product with the normal is
non-degenerate is orthonormal. -/
lemma frame_from_seed (n s : Vector3) (hn : n.Dot n = 1)
    (hw : (n.Cross s).Dot (n.Cross s) ≠ 0) :
    ((((n.Cross s).Normalize).Cross n).Normalize).Length = 1 ∧
    ((n.Cross s).Normalize).Length = 1 ∧
    ((((n.Cross s).Normalize).Cross n).Normalize).Dot ((n.Cross s).Normalize) = 0 := by
  have hwpos : 0 < (n.Cross s).Dot (n.Cross s) :=
    lt_of_le_of_ne (dot_self_nonneg _) (Ne.symm hw)
  have hb2 : ((n.Cross s).Normalize).Dot ((n.Cross s).Normalize) = 1 :=
    normalize_dot_self _ hwpos
  have hbn : ((n.Cross s).Normalize).Dot n = 0 := normCross_dot_left n s
  have hu : (((n.Cross s).Normalize).Cross n).Dot (((n.Cross s).Normalize).Cross n)
      = 1 := by
    rw [cross_dot_cross, hb2, hn, hbn]
    ring
  refine ⟨normalize_length _ (by rw [hu]; norm_num), normalize_length _ hwpos, ?_⟩
  rw [normalize_dot, cross_dot_left]
  ring

/-- `RandomTangentFrame` degenerates at the normal (1,0,0): the seed check only
catches normals near (−1,0,0), and the cross product with the seed (−1,0,0)
vanishes, so both returned frame vectors are the zero vector. -/
lemma rtf_degenerate : RandomTangentFrame ⟨1, 0, 0⟩ = (⟨0, 0, 0⟩, ⟨0, 0, 0⟩) := by
  have hc : ¬ Vector3.IsEquivalent ⟨1, 0, 0⟩ ⟨-1, 0, 0⟩ kEpsilon := by
    unfold Vector3.IsEquivalent Vector3.Length
    have h4 : ((⟨-1, 0, 0⟩ : Vector3).sub ⟨1, 0, 0⟩).Dot
        ((⟨-1, 0, 0⟩ : Vector3).sub ⟨1, 0, 0⟩) = 4 := by
      simp only [Vector3.sub, Vector3.Dot]
      norm_num
    rw [h4, sqrt_four]
    norm_num [kEpsilon]
  have hnorm0 : (⟨0, 0, 0⟩ : Vector3).Normalize = ⟨0, 0, 0⟩ := by
    simp [Vector3.Normalize, Vector3.mulS]
  have hcross : (⟨1, 0, 0⟩ : Vector3).Cross ⟨-1, 0, 0⟩ = ⟨0, 0, 0⟩ := by
    simp only [Vector3.Cross]
    norm_num
  have hcross2 : (⟨0, 0, 0⟩ : Vector3).Cross ⟨1, 0, 0⟩ = ⟨0, 0, 0⟩ := by
    simp only [Vector3.Cross]
    norm_num
  simp only [RandomTangentFrame]
  rw [if_neg hc, hcross, hnorm0, hcross2, hnorm0]

/-! ### Claims -/

/-- Claim C3 (counterexample): at the unit normal (1,0,0), which is
anti-parallel to the seed vector (−1,0,0), `RandomTangentFrame` does NOT
produce an orthonormal frame even within tolerance: the returned tangent is
the zero vector, whose length differs from 1 by 1 > kEpsilon. -/
theorem c3_counterexample :
    ¬ ((Vector3.mk 1 0 0).Dot ⟨1, 0, 0⟩ = 1 →
      |((RandomTangentFrame ⟨1, 0, 0⟩).1).Length - 1| ≤ kEpsilon ∧
      |((RandomTangentFrame ⟨1, 0, 0⟩).2).Length - 1| ≤ kEpsilon ∧
      |((RandomTangentFrame ⟨1, 0, 0⟩).1).Dot ⟨1, 0, 0⟩| ≤ kEpsilon ∧
      |((RandomTangentFrame ⟨1, 0, 0⟩).2).Dot ⟨1, 0, 0⟩| ≤ kEpsilon ∧
      |((RandomTangentFrame ⟨1, 0, 0⟩).1).Dot ((RandomTangentFrame ⟨1, 0, 0⟩).2)|
        ≤ kEpsilon) := by
  intro h
  obtain ⟨h1, -, -, -, -⟩ := h (by norm_num [Vector3.Dot])
  rw [rtf_degenerate] at h1
  simp only [Vector3.Length, Vector3.Dot] at h1
  norm_num [Real.sqrt_zero, kEpsilon] at h1

/-- Claim C3 (amended): for every unit-length normal other than (1,0,0) — the
vector exactly anti-parallel to the seed (−1,0,0) — `RandomTangentFrame`
produces an exactly orthonormal frame {tangent, normal, bitangent}: all three
vectors have unit length and the three pairwise dot products vanish. -/
theorem c3_amended (n : Vector3) (hn : n.Dot n = 1)
    (hne : n ≠ (⟨1, 0, 0⟩ : Vector3)) :
    ((RandomTangentFrame n).1).Length = 1 ∧
    ((RandomTangentFrame n).2).Length = 1 ∧
    n.Length = 1 ∧
    ((RandomTangentFrame n).1).Dot n = 0 ∧
    ((RandomTangentFrame n).2).Dot n = 0 ∧
    ((RandomTangentFrame n).1).Dot ((RandomTangentFrame n).2) = 0 := by
  have hnlen : n.Length = 1 := by
    unfold Vector3.Length
    rw [hn]
    exact Real.sqrt_one
  by_cases hcase : Vector3.IsEquivalent n ⟨-1, 0, 0⟩ kEpsilon
  · have hnx : n.x < 0 := by
      unfold Vector3.IsEquivalent Vector3.Length at hcase
      have hD0 : 0 ≤ ((⟨-1, 0, 0⟩ : Vector3).sub n).Dot ((⟨-1, 0, 0⟩ : Vector3).sub n) :=
        dot_self_nonneg _
      have hDlt : ((⟨-1, 0, 0⟩ : Vector3).sub n).Dot ((⟨-1, 0, 0⟩ : Vector3).sub n)
          < kEpsilon * kEpsilon := by
        calc ((⟨-1, 0, 0⟩ : Vector3).sub n).Dot ((⟨-1, 0, 0⟩ : Vector3).sub n)
            = Real.sqrt (((⟨-1, 0, 0⟩ : Vector3).sub n).Dot ((⟨-1, 0, 0⟩ : Vector3).sub n))
              * Real.sqrt (((⟨-1, 0, 0⟩ : Vector3).sub n).Dot ((⟨-1, 0, 0⟩ : Vector3).sub n)) :=
              (Real.mul_self_sqrt hD0).symm
          _ < kEpsilon * kEpsilon := mul_self_lt_mul_self (Real.sqrt_nonneg _) hcase
      simp only [Vector3.sub, Vector3.Dot] at hDlt
      norm_num [kEpsilon] at hDlt
      by_contra hge
      push_neg at hge
      nlinarith [mul_self_nonneg n.y, mul_self_nonneg n.z, mul_self_nonneg n.x]
    have hw : (n.Cross ⟨0, 1, 0⟩).Dot (n.Cross ⟨0, 1, 0⟩) ≠ 0 := by
      intro heq
      simp only [Vector3.Cross, Vector3.Dot] at heq
      nlinarith [mul_pos_of_neg_of_neg hnx hnx, mul_self_nonneg n.z]
    have key := frame_from_seed n ⟨0, 1, 0⟩ hn hw
    have hrtf : RandomTangentFrame n
        = ((((n.Cross ⟨0, 1, 0⟩).Normalize).Cross n).Normalize,
           (n.Cross ⟨0, 1, 0⟩).Normalize) := by
      simp only [RandomTangentFrame]
      rw [if_pos hcase]
    rw [hrtf]
    exact ⟨key.1, key.2.1, hnlen, normCross_dot_right _ n, normCross_dot_left n _,
      key.2.2⟩
  · have hw : (n.Cross ⟨-1, 0, 0⟩).Dot (n.Cross ⟨-1, 0, 0⟩) ≠ 0 := by
      intro heq
      simp only [Vector3.Cross, Vector3.Dot] at heq
      have hy2 : n.y * n.y = 0 := by
        nlinarith [mul_self_nonneg n.y, mul_self_nonneg n.z]
      have hz2 : n.z * n.z = 0 := by
        nlinarith [mul_self_nonneg n.y, mul_self_nonneg n.z]
      have hy : n.y = 0 := mul_self_eq_zero.mp hy2
      have hz : n.z = 0 := mul_self_eq_zero.mp hz2
      have hx2 : n.x * n.x = 1 := by
        have hd := hn
        simp only [Vector3.Dot] at hd
        rw [hy, hz] at hd
        linarith
      rcases mul_self_eq_one_iff.mp hx2 with hx | hx
      · exact hne (Vector3.ext hx hy hz)
      · apply hcase
        unfold Vector3.IsEquivalent Vector3.Length
        have hzero : ((⟨-1, 0, 0⟩ : Vector3).sub n).Dot ((⟨-1, 0, 0⟩ : Vector3).sub n)
            = 0 := by
          simp only [Vector3.sub, Vector3.Dot, hx, hy, hz]
          ring
        rw [hzero, Real.sqrt_zero]
        norm_num [kEpsilon]
    have key := frame_from_seed n ⟨-1, 0, 0⟩ hn hw
    have hrtf : RandomTangentFrame n
        = ((((n.Cross ⟨-1, 0, 0⟩).Normalize).Cross n).Normalize,
           (n.Cross ⟨-1, 0, 0⟩).Normalize) := by
      simp only [RandomTangentFrame]
      rw [if_neg hcase]
    rw [hrtf]
    exact ⟨key.1, key.2.1, hnlen, normCross_dot_right _ n, normCross_dot_left n _,
      key.2.2⟩

theorem c3_witness :
    ((RandomTangentFrame ⟨0, 1, 0⟩).1).Length = 1 ∧
    ((RandomTangentFrame ⟨0, 1, 0⟩).2).Length = 1 ∧
    (Vector3.mk 0 1 0).Length = 1 ∧
    ((RandomTangentFrame ⟨0, 1, 0⟩).1).Dot ⟨0, 1, 0⟩ = 0 ∧
    ((RandomTangentFrame ⟨0, 1, 0⟩).2).Dot ⟨0, 1, 0⟩ = 0 ∧
    ((RandomTangentFrame ⟨0, 1, 0⟩).1).Dot ((RandomTangentFrame ⟨0, 1, 0⟩).2) = 0 :=
  c3_amended ⟨0, 1, 0⟩ (by norm_num [Vector3.Dot]) (by simp [Vector3.ext_iff])

/-- Claim C4: for every unit-length normal and all r0, r1 in [0,1), the result
of `RandomVector normal r0 r1` dotted with the normal is at least `0 − kEpsilon`,
so the assertion in TracePath's hit case never fires.  (In the exact-real
embedding the dot product equals r0 ≥ 0.) -/
theorem c4_randomVector_above_hemisphere (n : Vector3) (r0 r1 : ℝ) (hn : n.Dot n = 1)
    (h0 : 0 ≤ r0) (h1 : r0 < 1) (h2 : 0 ≤ r1) (h3 : r1 < 1) :
    0 - kEpsilon ≤ (RandomVector n r0 r1).Dot n := by
  rw [randomVector_dot_normal n hn r0 r1]
  simp only [kEpsilon]
  norm_num
  linarith

theorem c4_witness :
    0 - kEpsilon ≤ (RandomVector ⟨0, 1, 0⟩ 0 0).Dot ⟨0, 1, 0⟩ :=
  c4_randomVector_above_hemisphere ⟨0, 1, 0⟩ 0 0 (by norm_num [Vector3.Dot])
    le_rfl (by norm_num) le_rfl (by norm_num)

/-- Claim C7: on a scene with zero spheres, with the sky-colour configuration
disabled, `TracePath` returns exactly (0,0,0) for every ray, random stream and
every bounce value below the maximum. -/
theorem c7_empty_scene_black (ray : Ray) (bounce : ℕ) (rands : ℕ → ℝ) (k : ℕ)
    (hb : bounce < kMaxBounces) (hsky : USE_SKY_COLOR = false) :
    (TracePath ray [] bounce rands k).1 = ⟨0, 0, 0⟩ := by
  unfold TracePath
  obtain ⟨f, hf⟩ : ∃ f, kMaxBounces + 1 - bounce = f + 1 := by
    simp only [kMaxBounces] at hb ⊢
    exact ⟨6 - bounce, by omega⟩
  rw [hf, TracePathF, if_neg (Nat.ne_of_lt hb)]
  simp [findNearest, hsky]

theorem c7_witness :
    (TracePath ⟨⟨0, 0, 0⟩, ⟨0, 0, 1⟩⟩ [] 0 (fun _ => 0) 0).1 = ⟨0, 0, 0⟩ :=
  c7_empty_scene_black ⟨⟨0, 0, 0⟩, ⟨0, 0, 1⟩⟩ 0 (fun _ => 0) 0 (by decide) rfl

/-- Claim C9: the render computation is a pure function of the seeded random
stream: two runs over the same scene and parameters with streams that agree
pointwise produce bit-identical pixel buffers. -/
theorem c9_render_deterministic (width height : ℕ) (s1 s2 : ℕ → ℝ)
    (hs : ∀ n, s1 n = s2 n) :
    Render width height s1 = Render width height s2 := by
  rw [funext hs]

theorem c9_witness :
    Render 1 1 (fun _ => 0) = Render 1 1 (fun _ => 0 + 0) :=
  c9_render_deterministic 1 1 (fun _ => 0) (fun _ => 0 + 0) (fun _ => by norm_num)

/-- Claim C2: `Intersect` returns 0 points when the ray's closest approach to
the sphere centre exceeds the radius; exactly 1 point in the tangent case
(discriminant in [0, kEpsilon] with the root non-negative); and 2 points,
ordered ascending by distance from the ray origin, when the ray passes through
the sphere (discriminant above kEpsilon) with both roots non-negative.  The
example ray (0,0,−5) → (0,0,1) against the unit sphere at the origin yields
exactly the hits (0,0,−1) then (0,0,1), in that order. -/
theorem c2_intersect_count_cases :
    (∀ (ray : Ray) (sphere : Sphere), ray.direction ≠ (⟨0, 0, 0⟩ : Vector3) →
      0 ≤ sphere.radius →
      ((∀ t, 0 ≤ t → sphere.radius < (rayAt ray t).Distance sphere.center) →
        (Intersect ray sphere).1 = 0) ∧
      (0 ≤ discOf ray sphere → discOf ray sphere ≤ kEpsilon →
        0 ≤ troot0 ray sphere → (Intersect ray sphere).1 = 1) ∧
      (kEpsilon < discOf ray sphere → 0 ≤ troot1 ray sphere →
        (Intersect ray sphere).1 = 2 ∧
        (Intersect ray sphere).2.1 = rayAt ray (troot1 ray sphere) ∧
        (Intersect ray sphere).2.2 = rayAt ray (troot0 ray sphere) ∧
        ((Intersect ray sphere).2.1).Distance ray.origin
          ≤ ((Intersect ray sphere).2.2).Distance ray.origin))
    ∧ Intersect exRay (unitSphere exMat) = (2, ⟨0, 0, -1⟩, ⟨0, 0, 1⟩) := by
  constructor
  · intro ray sphere hd hr
    have ha := qa_pos ray hd
    refine ⟨?_, ?_, ?_⟩
    · intro H
      by_contra hne
      obtain ⟨h0, hroot⟩ := count_pos_cases hne
      have hD : 0 ≤ discOf ray sphere := not_lt.mp h0
      have key : ∀ t : ℝ, 0 ≤ t → onSphere sphere (rayAt ray t) → False := by
        intro t ht hon
        unfold onSphere at hon
        have hdist : (rayAt ray t).Distance sphere.center = sphere.radius := by
          unfold Vector3.Distance Vector3.Length
          rw [hon]
          exact Real.sqrt_mul_self hr
        have hlt := H t ht
        rw [hdist] at hlt
        exact lt_irrefl _ hlt
      rcases hroot with h1 | h1
      · exact key _ h1 ((onSphere_iff_root ray sphere ha.ne' hD _).mpr (Or.inl rfl))
      · exact key _ h1 ((onSphere_iff_root ray sphere ha.ne' hD _).mpr (Or.inr rfl))
    · intro hD hDe ht0
      rw [Intersect_one_lowdisc (not_lt.mpr hD) ht0 (not_lt.mpr hDe)]
    · intro hE ht1
      have hD0 : 0 < discOf ray sphere :=
        lt_trans (by norm_num [kEpsilon]) hE
      have h4 := troot1_lt_troot0 ray sphere ha hD0
      have h1 : 0 ≤ troot0 ray sphere := ht1.trans h4.le
      rw [Intersect_two (not_lt.mpr hD0.le) h1 hE ht1 h4]
      exact ⟨rfl, rfl, rfl, rayAt_dist_mono ray _ _ ht1 h4.le⟩
  · exact Intersect_unit exMat

theorem c2_witness :
    (Intersect exRay (unitSphere exMat)).1 = 2 :=
  (((c2_intersect_count_cases.1 exRay (unitSphere exMat)
    (by simp [exRay, Vector3.ext_iff])
    (by norm_num [unitSphere])).2.2
    (by rw [discOf_unit]; norm_num [kEpsilon])
    (by rw [troot1_unit]; norm_num))).1

/-- Claim C1 (amended): for every ray with non-zero direction and every
sphere, whenever `Intersect` returns two points they are ordered by ascending
root parameter (the first is the smaller root t1, swapped since t1 < t0), and
whenever it returns at least one point the first returned point is a
non-negative intersection; it is moreover the nearest non-negative
intersection along the ray EXCEPT in the near-tangent case where the
discriminant lies in (0, kEpsilon] and both roots are non-negative (there the
single returned point corresponds to the larger root t0). -/
theorem c1_amended (ray : Ray) (sphere : Sphere)
    (hd : ray.direction ≠ (⟨0, 0, 0⟩ : Vector3)) :
    ((Intersect ray sphere).1 = 2 →
      (Intersect ray sphere).2.1 = rayAt ray (troot1 ray sphere) ∧
      (Intersect ray sphere).2.2 = rayAt ray (troot0 ray sphere) ∧
      troot1 ray sphere < troot0 ray sphere) ∧
    (1 ≤ (Intersect ray sphere).1 →
      ∃ t, 0 ≤ t ∧ (Intersect ray sphere).2.1 = rayAt ray t ∧
        onSphere sphere (rayAt ray t) ∧
        (¬ (0 < discOf ray sphere ∧ discOf ray sphere ≤ kEpsilon ∧
            0 ≤ troot1 ray sphere) →
          ∀ u, 0 ≤ u → onSphere sphere (rayAt ray u) → t ≤ u)) := by
  have ha := qa_pos ray hd
  have hle := troot1_le_troot0 ray sphere ha
  constructor
  · intro h2count
    by_cases h0 : discOf ray sphere < 0
    · rw [Intersect_of_neg h0] at h2count
      simp at h2count
    · by_cases h1 : 0 ≤ troot0 ray sphere
      · by_cases hE : kEpsilon < discOf ray sphere
        · by_cases ht1 : 0 ≤ troot1 ray sphere
          · have hD0 : 0 < discOf ray sphere := lt_trans (by norm_num [kEpsilon]) hE
            have h4 := troot1_lt_troot0 ray sphere ha hD0
            rw [Intersect_two h0 h1 hE ht1 h4]
            exact ⟨rfl, rfl, h4⟩
          · rw [Intersect_one_t1neg h0 h1 hE ht1] at h2count
            simp at h2count
        · rw [Intersect_one_lowdisc h0 h1 hE] at h2count
          simp at h2count
      · have ht1 : ¬ 0 ≤ troot1 ray sphere := fun hc => h1 (hc.trans hle)
        by_cases hE : kEpsilon < discOf ray sphere
        · rw [Intersect_zero_highdisc h0 h1 hE ht1] at h2count
          simp at h2count
        · rw [Intersect_zero_lowdisc h0 h1 hE] at h2count
          simp at h2count
  · intro hcount
    have hne : (Intersect ray sphere).1 ≠ 0 := by omega
    obtain ⟨h0, -⟩ := count_pos_cases hne
    have hD : 0 ≤ discOf ray sphere := not_lt.mp h0
    by_cases h1 : 0 ≤ troot0 ray sphere
    · by_cases hE : kEpsilon < discOf ray sphere
      · by_cases ht1 : 0 ≤ troot1 ray sphere
        · have hD0 : 0 < discOf ray sphere := lt_trans (by norm_num [kEpsilon]) hE
          have h4 := troot1_lt_troot0 ray sphere ha hD0
          rw [Intersect_two h0 h1 hE ht1 h4]
          refine ⟨troot1 ray sphere, ht1, rfl,
            (onSphere_iff_root ray sphere ha.ne' hD _).mpr (Or.inr rfl), ?_⟩
          intro hexc u hu hus
          rcases (onSphere_iff_root ray sphere ha.ne' hD u).mp hus with rfl | rfl
          · exact hle
          · exact le_rfl
        · rw [Intersect_one_t1neg h0 h1 hE ht1]
          refine ⟨troot0 ray sphere, h1, rfl,
            (onSphere_iff_root ray sphere ha.ne' hD _).mpr (Or.inl rfl), ?_⟩
          intro hexc u hu hus
          rcases (onSphere_iff_root ray sphere ha.ne' hD u).mp hus with rfl | rfl
          · exact le_rfl
          · exact absurd hu ht1
      · rw [Intersect_one_lowdisc h0 h1 hE]
        refine ⟨troot0 ray sphere, h1, rfl,
          (onSphere_iff_root ray sphere ha.ne' hD _).mpr (Or.inl rfl), ?_⟩
        intro hexc u hu hus
        rcases (onSphere_iff_root ray sphere ha.ne' hD u).mp hus with rfl | rfl
        · exact le_rfl
        · have hDe : discOf ray sphere ≤ kEpsilon := not_lt.mp hE
          have hnp : ¬ 0 < discOf ray sphere := fun hp => hexc ⟨hp, hDe, hu⟩
          have hD0 : discOf ray sphere = 0 := le_antisymm (not_lt.mp hnp) hD
          have heq : troot1 ray sphere = troot0 ray sphere := by
            unfold troot0 troot1
            rw [hD0, Real.sqrt_zero]
            ring_nf
          exact heq.ge
    · exfalso
      have ht1 : ¬ 0 ≤ troot1 ray sphere := fun hc => h1 (hc.trans hle)
      by_cases hE : kEpsilon < discOf ray sphere
      · rw [Intersect_zero_highdisc h0 h1 hE ht1] at hcount
        omega
      · rw [Intersect_zero_lowdisc h0 h1 hE] at hcount
        omega

theorem c1_witness :
    (Intersect exRay (unitSphere exMat)).2.1
        = rayAt exRay (troot1 exRay (unitSphere exMat)) ∧
      (Intersect exRay (unitSphere exMat)).2.2
        = rayAt exRay (troot0 exRay (unitSphere exMat)) ∧
      troot1 exRay (unitSphere exMat) < troot0 exRay (unitSphere exMat) :=
  (c1_amended exRay (unitSphere exMat) (by simp [exRay, Vector3.ext_iff])).1
    (by rw [Intersect_unit])

/-- Claim C1 (counterexample): for the near-tangent sphere of radius 1/1000 hit
by the example ray, `Intersect` returns one point, at the larger root
t0 = 5.001, but the sphere also intersects the ray at the non-negative
parameter 4.999, nearer to the origin: the first returned point is NOT the
nearest non-negative intersection along the ray. -/
theorem c1_counterexample :
    ¬ (1 ≤ (Intersect exRay ntSphere).1 →
      ∃ t, 0 ≤ t ∧ (Intersect exRay ntSphere).2.1 = rayAt exRay t ∧
        onSphere ntSphere (rayAt exRay t) ∧
        ∀ u, 0 ≤ u → onSphere ntSphere (rayAt exRay u) → t ≤ u) := by
  intro h
  obtain ⟨t, ht0, hpt, hon, hmin⟩ := h (by rw [Intersect_nt])
  rw [Intersect_nt] at hpt
  have hteq : t = 5001 / 1000 := by
    dsimp only at hpt
    simp only [rayAt, exRay, Vector3.add, Vector3.mulS, Vector3.mk.injEq] at hpt
    obtain ⟨-, -, hz⟩ := hpt
    linarith
  have hu := hmin (4999 / 1000) (by norm_num) ?_
  · rw [hteq] at hu
    norm_num at hu
  · simp only [onSphere, rayAt, exRay, ntSphere, Vector3.add, Vector3.mulS,
      Vector3.sub, Vector3.Dot]
    norm_num

/-- Claim C8 (counterexample): the claim quantifies over every starting bounce
value and asserts the recursion depth is bounded by the bounce budget
(`kMaxBounces − bounce` further levels below the limit, and no recursion at
all once at or past the limit).  At starting bounce 7 with a sphere the ray
hits, the termination guard `bounce == kMaxBounces` is never equal again, so
the code recurses past the limit: one call level of fuel does not suffice. -/
theorem c8_counterexample : ¬ (∀ (ray : Ray) (spheres : List Sphere) (bounce : ℕ)
    (rands : ℕ → ℝ) (k : ℕ),
    (TracePathF (if kMaxBounces ≤ bounce then 1 else kMaxBounces + 1 - bounce)
      ray spheres bounce rands k).isSome = true) := by
  intro h
  have hc := h exRay [unitSphere exMat] 7 (fun _ => 0) 0
  rw [if_pos (by decide), TracePathF, if_neg (by decide), findNearest_unit exMat] at hc
  simp [TracePathF] at hc

/-- Claim C8 (amended): for every ray, scene, random stream and every starting
bounce value at most the maximum, `TracePath` terminates and its recursion
depth is bounded by the bounce budget: `kMaxBounces + 1 − bounce` call levels
of fuel always suffice. -/
theorem c8_amended (ray : Ray) (spheres : List Sphere) (bounce : ℕ)
    (rands : ℕ → ℝ) (k : ℕ) (hb : bounce ≤ kMaxBounces) :
    (TracePathF (kMaxBounces + 1 - bounce) ray spheres bounce rands k).isSome = true :=
  tracePathF_isSome _ ray spheres bounce k rands le_rfl hb

theorem c8_witness :
    (TracePathF (kMaxBounces + 1 - 0) exRay [] 0 (fun _ => 0) 0).isSome = true :=
  c8_amended exRay [] 0 (fun _ => 0) 0 (by decide)

/-- Claim C5: in the hit case of `TracePath` (some sphere hit, bounce below the
maximum) the returned radiance is
`emissive + albedo * TracePath(continuation, scene, bounce+1) * (normal · newDir)`,
where the continuation ray starts at the hit point offset by `kEpsilon` along
the surface normal, its direction is the sampled `RandomVector` direction, and
the recursion receives `bounce + 1` (and the two consumed random draws advance
the stream index by 2). -/
theorem c5_hit_case (ray : Ray) (spheres : List Sphere) (bounce : ℕ)
    (rands : ℕ → ℝ) (k : ℕ) (hit : ℝ × Sphere × Vector3)
    (hb : bounce < kMaxBounces) (hfind : findNearest ray spheres = some hit) :
    (TracePath ray spheres bounce rands k).1 =
      (hit.2.1.material.emissive.add
        ((hit.2.1.material.albedo.mulV
          (TracePath
            ⟨hit.2.2.add ((((hit.2.2.sub hit.2.1.center).Normalize)).mulS kEpsilon),
             RandomVector ((hit.2.2.sub hit.2.1.center).Normalize) (rands k)
               (rands (k + 1))⟩
            spheres (bounce + 1) rands (k + 2)).1).mulS
          (((hit.2.2.sub hit.2.1.center).Normalize).Dot
            (RandomVector ((hit.2.2.sub hit.2.1.center).Normalize) (rands k)
              (rands (k + 1)))))) := by
  unfold TracePath
  have e1 : kMaxBounces + 1 - bounce = kMaxBounces + 1 - (bounce + 1) + 1 := by
    simp only [kMaxBounces] at hb ⊢
    omega
  rw [e1, TracePathF, if_neg (Nat.ne_of_lt hb)]
  simp only [hfind]
  set normal := (hit.2.2.sub hit.2.1.center).Normalize with hnormal
  set newDir := RandomVector normal (rands k) (rands (k + 1)) with hnd
  set newRay : Ray := ⟨hit.2.2.add (normal.mulS kEpsilon), newDir⟩ with hnr
  obtain ⟨res, hres⟩ := Option.isSome_iff_exists.mp
    (tracePathF_isSome (kMaxBounces + 1 - (bounce + 1)) newRay spheres (bounce + 1)
      (k + 2) rands le_rfl (by simp only [kMaxBounces] at hb ⊢; omega))
  rw [hres]
  simp

/-- Witness for C5 at a concrete hit: the example ray against the unit sphere. -/
theorem c5_witness :
    (TracePath exRay [unitSphere exMat] 0 (fun _ => 0) 0).1 =
      ((unitSphere exMat).material.emissive.add
        (((unitSphere exMat).material.albedo.mulV
          (TracePath
            ⟨(⟨0, 0, -1⟩ : Vector3).add
               ((((⟨0, 0, -1⟩ : Vector3).sub (unitSphere exMat).center).Normalize).mulS
                 kEpsilon),
             RandomVector (((⟨0, 0, -1⟩ : Vector3).sub (unitSphere exMat).center).Normalize)
               0 0⟩
            [unitSphere exMat] 1 (fun _ => 0) 2).1).mulS
          ((((⟨0, 0, -1⟩ : Vector3).sub (unitSphere exMat).center).Normalize).Dot
            (RandomVector (((⟨0, 0, -1⟩ : Vector3).sub (unitSphere exMat).center).Normalize)
              0 0)))) :=
  c5_hit_case exRay [unitSphere exMat] 0 (fun _ => 0) 0 (4, unitSphere exMat, ⟨0, 0, -1⟩)
    (by decide) (findNearest_unit exMat)

/-- Claim C6: a scene with a single sphere whose material has albedo exactly
(0,0,0): any primary ray (bounce 0) that hits it makes `TracePath` return
exactly that material's emissive value. -/
theorem c6_emissive_only (sph : Sphere) (ray : Ray) (rands : ℕ → ℝ) (k : ℕ)
    (halb : sph.material.albedo = ⟨0, 0, 0⟩)
    (hhit : (findNearest ray [sph]).isSome = true) :
    (TracePath ray [sph] 0 rands k).1 = sph.material.emissive := by
  obtain ⟨hit, hfind⟩ := Option.isSome_iff_exists.mp hhit
  have hsph : hit.2.1 = sph := by
    rw [findNearest_singleton] at hfind
    by_cases hc : 0 < (Intersect ray sph).1
    · rw [if_pos hc] at hfind
      have := Option.some.inj hfind
      rw [← this]
    · rw [if_neg hc] at hfind
      exact absurd hfind (by simp)
  unfold TracePath
  rw [Nat.sub_zero, TracePathF, if_neg (by decide : ¬ (0 = kMaxBounces))]
  simp only [hfind]
  set normal := (hit.2.2.sub hit.2.1.center).Normalize with hnormal
  set newDir := RandomVector normal (rands k) (rands (k + 1)) with hnd
  set newRay : Ray := ⟨hit.2.2.add (normal.mulS kEpsilon), newDir⟩ with hnr
  obtain ⟨res, hres⟩ := Option.isSome_iff_exists.mp
    (tracePathF_isSome kMaxBounces newRay [sph] (0 + 1) (k + 2) rands
      (by decide) (by decide))
  rw [hres]
  rw [hsph, halb]
  simp [Vector3.add, Vector3.mulV, Vector3.mulS]

theorem c6_witness :
    (TracePath exRay [unitSphere ⟨⟨0, 0, 0⟩, ⟨7, 8, 9⟩, 1⟩] 0 (fun _ => 0) 0).1
      = (⟨7, 8, 9⟩ : Vector3) :=
  c6_emissive_only (unitSphere ⟨⟨0, 0, 0⟩, ⟨7, 8, 9⟩, 1⟩) exRay (fun _ => 0) 0 rfl
    (by rw [findNearest_unit]; rfl)

/-- Claim C10: the two `Intersect` implementations (count plus fixed
two-element array, and dynamically sized sequence) are equivalent: for every
ray and sphere they produce the same hits in the same order. -/
theorem c10_intersect_versions_equivalent (ray : Ray) (sphere : Sphere) :
    IntersectList ray sphere = arrayHits (Intersect ray sphere) := by
  unfold IntersectList Intersect
  by_cases h0 : discOf ray sphere < 0
  · simp [h0, arrayHits]
  · by_cases h1 : 0 ≤ troot0 ray sphere <;>
      by_cases h2 : kEpsilon < discOf ray sphere <;>
      by_cases h3 : 0 ≤ troot1 ray sphere <;>
      by_cases h4 : troot1 ray sphere < troot0 ray sphere <;>
      simp [h0, h1, h2, h3, h4, arrayHits, arraySet, swapA, listSwap01]

end

end SoftPT
